import Mathlib

/-!
Verification of the experiment orchestration core of `src/Lab.py`
(class `Lab`): position generation by rejection sampling, the
precondition check of `experiment`, the timed run phase with drift
correction and early-extinction detection, and the shutdown phase.

The Python code is shallowly embedded: randomness (`randint`) is fed by
an explicit stream of draws, the monotonic clock (`Universe.get_time`)
and the thread counter (`threading.active_count`) are explicit oracles
indexed by the order of the calls in the code, and the unbounded
recursion / unbounded `while` loops of the source are represented by
exhausting the draw stream resp. a fuel counter (outcome `diverged`).
-/

namespace SE

/-- Modelled from the spec: `Position` (src/Position.py is not under
src/) is an immutable grid coordinate with equality taken on (y, x). -/
structure Position where
  y : ℤ
  x : ℤ
deriving DecidableEq, Repr

/-- Modelled from the spec: the parts of `Universe` (src/Universe.py is
not under src/) that `Lab.experiment` touches: grid bounds, the set of
occupied cells (filled at initial placement), the one-shot freeze flag
and the `culmination` timestamp, unset until the run is drained. -/
structure Universe where
  height : ℕ
  width : ℕ
  occupied : List Position
  freeze : Bool
  culmination : Option ℚ
deriving DecidableEq, Repr

/-- The environment of one execution of `Lab.experiment`: the successive
readings of `universe.get_time()` (in nanoseconds, indexed by call
order), the successive readings of `threading.active_count()` (indexed
by call order), and the stream of values drawn by `randint`. -/
structure Oracle where
  clock : ℕ → ℚ
  threads : ℕ → ℕ
  draws : List (ℕ × ℕ)

/-- Observable side effects of one execution of `Lab.experiment`:
how many `Universe` objects were constructed, the generated positions,
how many `Agent` objects were constructed, the final value of the local
`early_stop` flag, the arguments passed to `sleep` inside the run loop,
and whether `universe.freeze.set()` was called. -/
structure Trace where
  universes : ℕ
  generated : List Position
  agents : ℕ
  earlyStop : Bool
  sleeps : List ℚ
  freezeSignaled : Bool
deriving DecidableEq, Repr

/-- State of the run-phase loop when it exits: the local `early_stop`
flag, the sleep arguments, and the next clock / thread-count indices. -/
structure RunOut where
  earlyStop : Bool
  sleeps : List ℚ
  ci : ℕ
  ti : ℕ
deriving DecidableEq, Repr

/-- The dictionary returned by `Lab.experiment` (src/Lab.py line 105):
keys `parameters`, `timings`, `universe`. -/
structure ExperimentResult where
  parameters : List (String × ℤ)
  timings : List (String × ℚ)
  univ : Universe
deriving DecidableEq, Repr

/-- The keys of the dictionary literal returned at src/Lab.py line 105. -/
def experimentResultKeys : List String := [ "parameters", "timings", "universe" ]

/-- Outcome of an execution: normal return, an exception (`assert` or
`raise`), or divergence (the source recurses or loops without bound;
in the embedding the draw stream or the drain fuel ran out). -/
inductive Outcome where
  | ok (r : ExperimentResult)
  | error (msg : String)
  | diverged (site : String)
deriving DecidableEq, Repr

/-- Python `int(q)` on a float: truncation toward zero. -/
def pyInt (q : ℚ) : ℤ := if q < 0 then -⌊-q⌋ else ⌊q⌋

/-- Python `range(d, 0, -1)`: the list d, d-1, ..., 1 (empty if d ≤ 0). -/
def pyRangeDown (d : ℤ) : List ℤ := (List.range d.toNat).map (fun k => d - (k : ℤ))

/-- `Position(y=randint(0, height - 1), x=randint(0, width - 1))`
(src/Lab.py line 108), the random draw being modelled by reducing the
raw draw modulo the bound, which for a positive bound realises exactly
the inclusive range 0 .. bound - 1 of `randint`. -/
def randPos (height width : ℕ) (d : ℕ × ℕ) : Position :=
  { y := ((d.1 % height : ℕ) : ℤ), x := ((d.2 % width : ℕ) : ℤ) }

/-- `Lab._generate_position` (src/Lab.py lines 107-112): draw a
position; if it is already taken, the source calls itself recursively
on the same arguments. Here the remaining draw stream shrinks at each
call; `none` models the execution that never finds a free cell. -/
def generate_position (positions : List Position) (height width : ℕ) :
    List (ℕ × ℕ) → Option (Position × List (ℕ × ℕ))
  | [] => none
  | d :: rest =>
    let new_pos := randPos height width d
    if new_pos ∈ positions then generate_position positions height width rest
    else some (new_pos, rest)

/-- Number of stack frames of `Lab._generate_position` live at the
moment it returns: 1 for the returning call plus 1 for every enclosing
call that drew an already-taken position (line 112 is a plain recursive
call, not a tail-call-optimised loop, so each retry adds a frame). -/
def generate_position_depth (positions : List Position) (height width : ℕ) :
    List (ℕ × ℕ) → Option ℕ
  | [] => none
  | d :: rest =>
    if randPos height width d ∈ positions then
      (generate_position_depth positions height width rest).map (· + 1)
    else some 1

/-- The position-generation loop of `Lab._invoke_initial_population`
(src/Lab.py lines 123-132): starting from the accumulated list, append
`n` freshly generated positions. -/
def generate_positions (height width : ℕ) :
    ℕ → List (ℕ × ℕ) → List Position → Option (List Position × List (ℕ × ℕ))
  | 0, stream, acc => some (acc, stream)
  | n + 1, stream, acc =>
    (generate_position acc height width stream).bind
      (fun pr => generate_positions height width n pr.2 (acc ++ [pr.1]))

/-- `np.sum(universe.space != None)` (src/Lab.py line 56): the number of
grid cells holding an agent, i.e. the number of cells (y, x) of the
height × width grid that occur in the placed position list. -/
def occupiedCount (height width : ℕ) (ps : List Position) : ℕ :=
  ((Finset.range height ×ˢ Finset.range width).filter
    (fun c => ({ y := (c.1 : ℤ), x := (c.2 : ℤ) } : Position) ∈ ps)).card

/-- src/Lab.py lines 68-69:
`total_duration_remaining = max_total_duration - max(0, int(start_running / 1e9))`,
`simulation_duration = min(total_duration_remaining, max_simulation_duration)`. -/
def simulation_duration (max_total_duration max_simulation_duration : ℤ)
    (start_running : ℚ) : ℤ :=
  min (max_total_duration - max 0 (pyInt (start_running / (10 ^ 9 : ℚ))))
    max_simulation_duration

/-- The argument passed to `sleep` at src/Lab.py line 82:
`max(1 + simulation_duration - i - t, 0)`. -/
def sleepArg (sd i : ℤ) (t : ℚ) : ℚ := max (((1 + sd - i : ℤ) : ℚ) - t) 0

/-- The run-phase loop of `Lab.experiment` (src/Lab.py lines 70-82),
iterating over `range(simulation_duration, 0, -1)`: on each tick, read
the active thread count; if it has dropped to the baseline, set
`early_stop` and break; otherwise read the clock, compute the
drift-corrected sleep argument and sleep. -/
def runLoopAux (o : Oracle) (baseline : ℕ) (sd : ℤ) (sr : ℚ) :
    List ℤ → ℕ → ℕ → RunOut
  | [], ci, ti => ⟨false, [], ci, ti⟩
  | i :: rest, ci, ti =>
    if o.threads ti ≤ baseline then ⟨true, [], ci, ti + 1⟩
    else
      let t := (o.clock ci - sr) / (10 ^ 9 : ℚ)
      let out := runLoopAux o baseline sd sr rest (ci + 1) (ti + 1)
      ⟨out.earlyStop, sleepArg sd i t :: out.sleeps, out.ci, out.ti⟩

/-- The drain loop of `Lab.experiment` (src/Lab.py lines 87-96): read
`active_agents = threading.active_count() - non_agents_threads`; while
it is positive, sleep 0.1 s and read again. Fuel models the unbounded
`while`; `none` is the execution where the population never drains. -/
def drainLoopAux (o : Oracle) (baseline : ℕ) : ℕ → ℕ → Option ℕ
  | 0, ti => if (o.threads ti : ℤ) - (baseline : ℤ) ≤ 0 then some (ti + 1) else none
  | fuel + 1, ti =>
    if (o.threads ti : ℤ) - (baseline : ℤ) ≤ 0 then some (ti + 1)
    else drainLoopAux o baseline fuel (ti + 1)

/-- The whole timed run phase (src/Lab.py lines 66-82) as a function of
the oracle: baseline thread count read at index 0, `start_running` read
at clock index 3, then the supervision loop over
`range(simulation_duration, 0, -1)` starting at clock index 4 and
thread-count index 1. -/
def runPhase (o : Oracle) (max_total_duration max_simulation_duration : ℤ) : RunOut :=
  runLoopAux o (o.threads 0)
    (simulation_duration max_total_duration max_simulation_duration (o.clock 3))
    (o.clock 3)
    (pyRangeDown (simulation_duration max_total_duration max_simulation_duration
      (o.clock 3))) 4 1

/-- `Lab.experiment` (src/Lab.py lines 22-105). Clock readings are
indexed in call order: 0 = line 47 (`init_universe`), 1 = line 58
(`invoke_initial_population`), 2 = line 63 (`start_initial_population`),
3 = line 67 (`start_running`), 4.. = line 81 (one per completed loop
tick), then line 83 (`run`) and line 97 (`culmination`). Thread-count
readings: 0 = line 61 (`non_agents_threads`), 1.. = line 76 (one per
tick) followed by lines 88/96 (drain). -/
def experiment (height width initial_population_count : ℕ)
    (max_total_duration max_simulation_duration : ℤ)
    (o : Oracle) (drainFuel : ℕ) : Trace × Outcome :=
  if initial_population_count ≤ height * width then
    match generate_positions height width initial_population_count o.draws [] with
    | none =>
      ({ universes := 1, generated := [], agents := 0, earlyStop := false,
         sleeps := [], freezeSignaled := false },
       Outcome.diverged "generate_position")
    | some (ps, _rest) =>
      if occupiedCount height width ps = initial_population_count then
        let non_agents_threads := o.threads 0
        let rl := runPhase o max_total_duration max_simulation_duration
        let tr : Trace :=
          { universes := 1, generated := ps, agents := ps.length,
            earlyStop := rl.earlyStop, sleeps := rl.sleeps,
            freezeSignaled := true }
        match drainLoopAux o non_agents_threads drainFuel rl.ti with
        | none => (tr, Outcome.diverged "drain")
        | some _ =>
          let c := o.clock (rl.ci + 1)
          (tr, Outcome.ok
            { parameters :=
                [ ( "height", (height : ℤ)), ( "width", (width : ℤ)),
                  ( "initial_population_count", (initial_population_count : ℤ)),
                  ( "max_total_duration", max_total_duration),
                  ( "max_simulation_duration", max_simulation_duration) ],
              timings :=
                [ ( "init_universe", o.clock 0),
                  ( "invoke_initial_population", o.clock 1),
                  ( "start_initial_population", o.clock 2),
                  ( "run", o.clock rl.ci),
                  ( "stop", c) ],
              univ :=
                { height := height, width := width, occupied := ps,
                  freeze := true, culmination := some c } })
      else
        ({ universes := 1, generated := ps, agents := ps.length,
           earlyStop := false, sleeps := [], freezeSignaled := false },
         Outcome.error "AssertionError: positions are uniques")
  else
    ({ universes := 0, generated := [], agents := 0, earlyStop := false,
       sleeps := [], freezeSignaled := false },
     Outcome.error "AssertionError: initial_population_count <= height * width")

/-- A position lies inside the height × width grid. -/
def inBounds (height width : ℕ) (p : Position) : Prop :=
  0 ≤ p.y ∧ p.y < (height : ℤ) ∧ 0 ≤ p.x ∧ p.x < (width : ℤ)

instance (height width : ℕ) (p : Position) : Decidable (inBounds height width p) := by
  unfold inBounds; infer_instance

lemma pyInt_intCast (n : ℤ) : pyInt (n : ℚ) = n := by
  unfold pyInt
  have h1 : (-(n : ℚ)) = ((-n : ℤ) : ℚ) := by push_cast; ring
  split
  · rw [h1, Int.floor_intCast]; ring
  · exact Int.floor_intCast n

lemma pyInt_zero : pyInt 0 = 0 := by
  have := pyInt_intCast 0
  simpa using this

lemma simulation_duration_zero (mtd msd : ℤ) :
    simulation_duration mtd msd 0 = min mtd msd := by
  simp [simulation_duration, pyInt_zero]

lemma pyRangeDown_of_nonpos {d : ℤ} (hd : d ≤ 0) : pyRangeDown d = [] := by
  simp [pyRangeDown, Int.toNat_of_nonpos hd]

lemma runLoopAux_ci_le (o : Oracle) (b : ℕ) (sd : ℤ) (sr : ℚ) (l : List ℤ) :
    ∀ ci ti : ℕ, ci ≤ (runLoopAux o b sd sr l ci ti).ci := by
  induction l with
  | nil => intro ci ti; exact le_refl ci
  | cons i rest ih =>
    intro ci ti
    simp only [runLoopAux]
    split
    · exact le_refl ci
    · exact le_trans (Nat.le_succ ci) (ih (ci + 1) (ti + 1))

lemma generate_position_not_mem {positions : List Position} {height width : ℕ}
    {s : List (ℕ × ℕ)} {p : Position} {rest : List (ℕ × ℕ)}
    (hgp : generate_position positions height width s = some (p, rest)) :
    p ∉ positions := by
  induction s with
  | nil => simp [generate_position] at hgp
  | cons d dtl ih =>
    simp only [generate_position] at hgp
    split at hgp
    · exact ih hgp
    · rename_i hmem
      obtain ⟨rfl, rfl⟩ : randPos height width d = p ∧ dtl = rest := by
        simpa using hgp
      exact hmem

lemma generate_position_inBounds {positions : List Position} {height width : ℕ}
    {s : List (ℕ × ℕ)} {p : Position} {rest : List (ℕ × ℕ)}
    (hh : 0 < height) (hw : 0 < width)
    (hgp : generate_position positions height width s = some (p, rest)) :
    inBounds height width p := by
  induction s with
  | nil => simp [generate_position] at hgp
  | cons d dtl ih =>
    simp only [generate_position] at hgp
    split at hgp
    · exact ih hgp
    · obtain ⟨rfl, rfl⟩ : randPos height width d = p ∧ dtl = rest := by
        simpa using hgp
      simp only [inBounds, randPos]
      refine ⟨Int.natCast_nonneg _, ?_, Int.natCast_nonneg _, ?_⟩
      · exact_mod_cast Nat.mod_lt d.1 hh
      · exact_mod_cast Nat.mod_lt d.2 hw

lemma generate_positions_spec {height width : ℕ} (hh : 0 < height) (hw : 0 < width) :
    ∀ (n : ℕ) (s : List (ℕ × ℕ)) (acc ps : List Position) (rest : List (ℕ × ℕ)),
      generate_positions height width n s acc = some (ps, rest) →
      acc.Nodup → (∀ p ∈ acc, inBounds height width p) →
      ps.Nodup ∧ ps.length = acc.length + n ∧ ∀ p ∈ ps, inBounds height width p := by
  intro n
  induction n with
  | zero =>
    intro s acc ps rest hgen hnd hb
    obtain ⟨rfl, rfl⟩ : acc = ps ∧ s = rest := by
      simpa [generate_positions] using hgen
    exact ⟨hnd, by simp, hb⟩
  | succ n ih =>
    intro s acc ps rest hgen hnd hb
    simp only [generate_positions] at hgen
    rw [Option.bind_eq_some] at hgen
    obtain ⟨⟨p, rest'⟩, hgp, hgen⟩ := hgen
    have hfresh := generate_position_not_mem hgp
    have hbp := generate_position_inBounds hh hw hgp
    have hnd' : (acc ++ [p]).Nodup := by
      refine hnd.append (List.nodup_singleton p) ?_
      intro a ha hmem
      rw [List.mem_singleton] at hmem
      exact hfresh (hmem ▸ ha)
    have hb' : ∀ q ∈ acc ++ [p], inBounds height width q := by
      intro q hq
      rcases List.mem_append.mp hq with h | h
      · exact hb q h
      · rw [List.mem_singleton] at h
        exact h ▸ hbp
    obtain ⟨h1, h2, h3⟩ := ih rest' (acc ++ [p]) ps rest hgen hnd' hb'
    refine ⟨h1, ?_, h3⟩
    simp only [List.length_append, List.length_singleton] at h2
    omega

lemma occupiedCount_eq_length {height width : ℕ} {ps : List Position}
    (hnd : ps.Nodup) (hb : ∀ p ∈ ps, inBounds height width p) :
    occupiedCount height width ps = ps.length := by
  unfold occupiedCount
  have himg : (Finset.range height ×ˢ Finset.range width).filter
      (fun c => ({ y := (c.1 : ℤ), x := (c.2 : ℤ) } : Position) ∈ ps)
      = ps.toFinset.image (fun p => (p.y.toNat, p.x.toNat)) := by
    ext c
    simp only [Finset.mem_filter, Finset.mem_product, Finset.mem_range,
      Finset.mem_image, List.mem_toFinset]
    constructor
    · rintro ⟨⟨hy, hx⟩, hmem⟩
      exact ⟨_, hmem, by simp⟩
    · rintro ⟨p, hp, rfl⟩
      obtain ⟨hy0, hyh, hx0, hxw⟩ := hb p hp
      dsimp only
      refine ⟨⟨by omega, by omega⟩, ?_⟩
      have heq : ({ y := ((p.y.toNat : ℕ) : ℤ), x := ((p.x.toNat : ℕ) : ℤ) } : Position) = p := by
        cases p
        dsimp only at hy0 hyh hx0 hxw ⊢
        simp only [Position.mk.injEq]
        constructor <;> omega
      rwa [heq]
  rw [himg, Finset.card_image_of_injOn, List.toFinset_card_of_nodup hnd]
  intro p hp q hq hpq
  simp only [Finset.mem_coe, List.mem_toFinset] at hp hq
  obtain ⟨hy0, _, hx0, _⟩ := hb p hp
  obtain ⟨hy0', _, hx0', _⟩ := hb q hq
  have h1 : p.y.toNat = q.y.toNat := by
    simpa using congrArg Prod.fst hpq
  have h2 : p.x.toNat = q.x.toNat := by
    simpa using congrArg Prod.snd hpq
  cases p
  cases q
  dsimp only at h1 h2 hy0 hx0 hy0' hx0'
  simp only [Position.mk.injEq]
  constructor <;> omega

lemma generate_position_of_full {positions : List Position} {height width : ℕ}
    (hh : 0 < height) (hw : 0 < width)
    (hfull : ∀ y x : ℕ, y < height → x < width →
      ({ y := (y : ℤ), x := (x : ℤ) } : Position) ∈ positions) :
    ∀ s, generate_position positions height width s = none := by
  intro s
  induction s with
  | nil => rfl
  | cons d rest ih =>
    simp only [generate_position, randPos]
    rw [if_pos (hfull (d.1 % height) (d.2 % width)
      (Nat.mod_lt d.1 hh) (Nat.mod_lt d.2 hw))]
    exact ih

lemma runPhase_eq_of_sd {o : Oracle} {mtd msd sdv : ℤ}
    (hsd : simulation_duration mtd msd (o.clock 3) = sdv) :
    runPhase o mtd msd =
      runLoopAux o (o.threads 0) sdv (o.clock 3) (pyRangeDown sdv) 4 1 := by
  unfold runPhase
  rw [hsd]

lemma runPhase_of_nonpos {o : Oracle} {mtd msd : ℤ}
    (hsd : simulation_duration mtd msd (o.clock 3) ≤ 0) :
    runPhase o mtd msd = ⟨false, [], 4, 1⟩ := by
  unfold runPhase
  rw [pyRangeDown_of_nonpos hsd]
  rfl

lemma experiment_ok_inv {height width n : ℕ} {mtd msd : ℤ} {o : Oracle} {fuel : ℕ}
    {tr : Trace} {r : ExperimentResult}
    (hok : experiment height width n mtd msd o fuel = (tr, Outcome.ok r)) :
    ∃ ps rest,
      generate_positions height width n o.draws [] = some (ps, rest) ∧
      occupiedCount height width ps = n ∧
      n ≤ height * width ∧
      tr = { universes := 1, generated := ps, agents := ps.length,
             earlyStop := (runPhase o mtd msd).earlyStop,
             sleeps := (runPhase o mtd msd).sleeps, freezeSignaled := true } ∧
      r = { parameters :=
              [ ( "height", (height : ℤ)), ( "width", (width : ℤ)),
                ( "initial_population_count", (n : ℤ)),
                ( "max_total_duration", mtd),
                ( "max_simulation_duration", msd) ],
            timings :=
              [ ( "init_universe", o.clock 0),
                ( "invoke_initial_population", o.clock 1),
                ( "start_initial_population", o.clock 2),
                ( "run", o.clock (runPhase o mtd msd).ci),
                ( "stop", o.clock ((runPhase o mtd msd).ci + 1)) ],
            univ := { height := height, width := width, occupied := ps,
                      freeze := true,
                      culmination := some (o.clock ((runPhase o mtd msd).ci + 1)) } } := by
  simp only [experiment] at hok
  split at hok
  · rename_i hle
    split at hok
    · exact absurd (congrArg Prod.snd hok) (by simp)
    · rename_i ps rest hgen
      split at hok
      · rename_i hocc
        split at hok
        · exact absurd (congrArg Prod.snd hok) (by simp)
        · rename_i k hdrain
          rw [Prod.mk.injEq] at hok
          obtain ⟨htr, hout⟩ := hok
          rw [Outcome.ok.injEq] at hout
          exact ⟨ps, rest, hgen, hocc, hle, htr.symm, hout.symm⟩
      · exact absurd (congrArg Prod.snd hok) (by simp)
  · exact absurd (congrArg Prod.snd hok) (by simp)

lemma experiment_eq_ok (height width n : ℕ) (mtd msd : ℤ) (o : Oracle) (fuel : ℕ)
    (ps : List Position) (rest : List (ℕ × ℕ)) (k : ℕ)
    (h1 : n ≤ height * width)
    (h2 : generate_positions height width n o.draws [] = some (ps, rest))
    (h3 : occupiedCount height width ps = n)
    (h4 : drainLoopAux o (o.threads 0) fuel (runPhase o mtd msd).ti = some k) :
    experiment height width n mtd msd o fuel =
      ({ universes := 1, generated := ps, agents := ps.length,
         earlyStop := (runPhase o mtd msd).earlyStop,
         sleeps := (runPhase o mtd msd).sleeps, freezeSignaled := true },
       Outcome.ok
         { parameters :=
             [ ( "height", (height : ℤ)), ( "width", (width : ℤ)),
               ( "initial_population_count", (n : ℤ)),
               ( "max_total_duration", mtd),
               ( "max_simulation_duration", msd) ],
           timings :=
             [ ( "init_universe", o.clock 0),
               ( "invoke_initial_population", o.clock 1),
               ( "start_initial_population", o.clock 2),
               ( "run", o.clock (runPhase o mtd msd).ci),
               ( "stop", o.clock ((runPhase o mtd msd).ci + 1)) ],
           univ := { height := height, width := width, occupied := ps,
                     freeze := true,
                     culmination := some (o.clock ((runPhase o mtd msd).ci + 1)) } }) := by
  simp only [experiment, h2, h4, if_pos h1, if_pos h3]

/-- Claim C5: `experiment` called with `initial_population_count` greater
than `height * width` fails with the invalid-configuration assertion
before any side effect: the trace records no constructed Universe, no
generated position and no created Agent. -/
theorem claim_C5_precondition_fails_fast (height width n : ℕ) (mtd msd : ℤ)
    (o : Oracle) (fuel : ℕ) (hgt : height * width < n) :
    experiment height width n mtd msd o fuel =
      ({ universes := 0, generated := [], agents := 0, earlyStop := false,
         sleeps := [], freezeSignaled := false },
       Outcome.error "AssertionError: initial_population_count <= height * width") := by
  unfold experiment
  rw [if_neg (by omega)]

/-- Witness for claim C5 at height = width = 1, count = 2. -/
theorem claim_C5_witness :
    experiment 1 1 2 5 5 { clock := fun _ => 0, threads := fun _ => 0, draws := [] } 0 =
      ({ universes := 0, generated := [], agents := 0, earlyStop := false,
         sleeps := [], freezeSignaled := false },
       Outcome.error "AssertionError: initial_population_count <= height * width") :=
  claim_C5_precondition_fails_fast 1 1 2 5 5
    { clock := fun _ => 0, threads := fun _ => 0, draws := [] } 0 (by decide)

/-- Claim C9: every position returned by `_generate_position` satisfies
the bounds invariant 0 ≤ y < height and 0 ≤ x < width, for every
height ≥ 1 and width ≥ 1. -/
theorem claim_C9_position_bounds (positions : List Position) (height width : ℕ)
    (s : List (ℕ × ℕ)) (p : Position) (rest : List (ℕ × ℕ))
    (hh : 1 ≤ height) (hw : 1 ≤ width)
    (hgp : generate_position positions height width s = some (p, rest)) :
    0 ≤ p.y ∧ p.y < (height : ℤ) ∧ 0 ≤ p.x ∧ p.x < (width : ℤ) :=
  generate_position_inBounds hh hw hgp

/-- Witness for claim C9 on a 2 × 2 grid with draw (1, 1). -/
theorem claim_C9_witness :
    0 ≤ (Position.mk 1 1).y ∧ (Position.mk 1 1).y < (2 : ℤ) ∧
      0 ≤ (Position.mk 1 1).x ∧ (Position.mk 1 1).x < (2 : ℤ) :=
  claim_C9_position_bounds [] 2 2 [ (1, 1) ] (Position.mk 1 1) [] (by decide)
    (by decide) (by decide)

/-- Claim C3, what the code actually does on an exhausted grid: when the
already-chosen positions cover every cell of the grid,
`_generate_position` never returns — for every stream of draws the
recursion at src/Lab.py line 112 consumes the whole stream and produces
no value, and no configuration error is raised anywhere in the function
(the embedding has no error outcome at all for this function). -/
theorem claim_C3_exhausted_grid_never_returns (positions : List Position)
    (height width : ℕ) (hh : 1 ≤ height) (hw : 1 ≤ width)
    (hfull : ∀ y x : ℕ, y < height → x < width →
      ({ y := (y : ℤ), x := (x : ℤ) } : Position) ∈ positions) :
    ∀ s, generate_position positions height width s = none :=
  generate_position_of_full hh hw hfull

/-- Witness for claim C3 on the full 1 × 1 grid. -/
theorem claim_C3_witness :
    generate_position [ (Position.mk 0 0) ] 1 1 [ (0, 0) ] = none :=
  claim_C3_exhausted_grid_never_returns [ Position.mk 0 0 ] 1 1 (by decide)
    (by decide)
    (fun y x hy hx => by
      have hy0 : y = 0 := by omega
      have hx0 : x = 0 := by omega
      subst hy0
      subst hx0
      simp)
    [ (0, 0) ]

/-- Claim C2, what the code actually does: `_generate_position` is
recursive, and its retry on collision grows the call stack — with k
consecutive colliding draws followed by one fresh draw, k + 1 nested
stack frames of `_generate_position` are live when it returns, for
every k, so the call-stack depth is not bounded. -/
theorem claim_C2_recursion_depth_unbounded :
    ∀ k : ℕ, generate_position_depth [ (Position.mk 0 0) ] 1 2
      (List.replicate k (0, 0) ++ [ (0, 1) ]) = some (k + 1) := by
  intro k
  induction k with
  | zero => decide
  | succ k ih =>
    rw [List.replicate_succ]
    simp only [List.cons_append, generate_position_depth, List.append_eq]
    rw [if_pos (by decide), ih]
    rfl

/-- Claim C6: `_generate_position` always returns a position not in the
already-chosen set, and the list built by `_invoke_initial_population`
has no two coinciding positions, has exactly
`initial_population_count` entries, and occupies exactly
`initial_population_count` grid cells. -/
theorem claim_C6_uniqueness :
    (∀ (positions : List Position) (height width : ℕ) (s : List (ℕ × ℕ))
        (p : Position) (rest : List (ℕ × ℕ)),
        generate_position positions height width s = some (p, rest) →
        p ∉ positions)
  ∧ (∀ (height width n : ℕ) (s : List (ℕ × ℕ)) (ps : List Position)
        (rest : List (ℕ × ℕ)), 1 ≤ height → 1 ≤ width →
        generate_positions height width n s [] = some (ps, rest) →
        ps.Nodup ∧ ps.length = n ∧ occupiedCount height width ps = n) := by
  constructor
  · intro positions height width s p rest h
    exact generate_position_not_mem h
  · intro height width n s ps rest hh hw hgen
    obtain ⟨h1, h2, h3⟩ := generate_positions_spec hh hw n s [] ps rest hgen
      List.nodup_nil (by simp)
    have h2' : ps.length = n := by simpa using h2
    exact ⟨h1, h2', by rw [occupiedCount_eq_length h1 h3, h2']⟩

/-- Witness for claim C6: freshness on a 2 × 2 grid, and uniqueness for
two positions generated with one colliding draw in between. -/
theorem claim_C6_witness :
    ((Position.mk 1 1) ∉ [ (Position.mk 0 0) ])
  ∧ ([ Position.mk 0 0, Position.mk 1 1 ].Nodup
      ∧ [ Position.mk 0 0, Position.mk 1 1 ].length = 2
      ∧ occupiedCount 2 2 [ Position.mk 0 0, Position.mk 1 1 ] = 2) :=
  ⟨claim_C6_uniqueness.1 [ Position.mk 0 0 ] 2 2 [ (0, 0), (1, 1) ]
      (Position.mk 1 1) [] (by decide),
   claim_C6_uniqueness.2 2 2 2 [ (0, 0), (0, 0), (1, 1) ]
      [ Position.mk 0 0, Position.mk 1 1 ] [] (by decide) (by decide) (by decide)⟩

/-- Claim C7: the argument passed to `sleep` on each tick equals
max((simulation_duration − i + 1) − t, 0), is never negative, and every
sleep performed by the run loop is non-negative. -/
theorem claim_C7_sleep_drift_corrected :
    (∀ (sd i : ℤ) (t : ℚ),
        sleepArg sd i t = max (((sd - i + 1 : ℤ) : ℚ) - t) 0 ∧ 0 ≤ sleepArg sd i t)
  ∧ (∀ (o : Oracle) (b : ℕ) (sd : ℤ) (sr : ℚ) (l : List ℤ) (ci ti : ℕ),
        List.Forall (fun d => 0 ≤ d) (runLoopAux o b sd sr l ci ti).sleeps) := by
  constructor
  · intro sd i t
    constructor
    · unfold sleepArg
      have h : (1 + sd - i : ℤ) = (sd - i + 1 : ℤ) := by ring
      rw [h]
    · exact le_max_right _ _
  · intro o b sd sr l
    induction l with
    | nil => intro ci ti; trivial
    | cons i rest ih =>
      intro ci ti
      simp only [runLoopAux]
      split
      · trivial
      · rw [List.forall_cons]
        exact ⟨le_max_right _ _, ih (ci + 1) (ti + 1)⟩

/-- Counterexample to claim C4: with max_total_duration = 1,
max_simulation_duration = 3 and 5 seconds of wall clock already elapsed
(start_running = 5e9 ns), the code computes simulation_duration = −4,
which is negative and differs from the claimed clamped value
max(min(1 − 5, 3), 0) = 0. -/
theorem claim_C4_counterexample :
    simulation_duration 1 3 (5 * 10 ^ 9) = -4
  ∧ simulation_duration 1 3 (5 * 10 ^ 9) < 0
  ∧ simulation_duration 1 3 (5 * 10 ^ 9) ≠ max (min ((1 : ℤ) - 5) 3) 0 := by
  have h5 : (5 * 10 ^ 9 : ℚ) / (10 ^ 9 : ℚ) = ((5 : ℤ) : ℚ) := by norm_num
  have heq : simulation_duration 1 3 (5 * 10 ^ 9) = -4 := by
    unfold simulation_duration
    rw [h5, pyInt_intCast]
    omega
  refine ⟨heq, by omega, by omega⟩

/-- Claim C4 as amended: simulation_duration equals
min(max_total_duration − max(0, elapsed_seconds), max_simulation_duration);
the clamp applies to the elapsed seconds, not to the result, so the
value can be negative; it agrees with the spec formula whenever it is
non-negative, and when it is negative the run loop iterates over the
empty range, performing zero iterations. -/
theorem claim_C4_amended_thm (mtd msd : ℤ) (sr : ℚ) :
    simulation_duration mtd msd sr
      = min (mtd - max 0 (pyInt (sr / (10 ^ 9 : ℚ)))) msd
  ∧ (0 ≤ simulation_duration mtd msd sr →
      simulation_duration mtd msd sr
        = max (min (mtd - max 0 (pyInt (sr / (10 ^ 9 : ℚ)))) msd) 0)
  ∧ (simulation_duration mtd msd sr < 0 →
      pyRangeDown (simulation_duration mtd msd sr) = []) := by
  refine ⟨rfl, ?_, ?_⟩
  · intro h
    unfold simulation_duration at *
    omega
  · intro h
    exact pyRangeDown_of_nonpos (le_of_lt h)

/-- Witness for the amended claim C4: a run whose simulation_duration is
negative, for which the run loop has an empty iteration range. -/
theorem claim_C4_amended_witness :
    simulation_duration 0 (-1) 0 < 0
  ∧ pyRangeDown (simulation_duration 0 (-1) 0) = [] := by
  have hlt : simulation_duration 0 (-1) 0 < 0 := by
    rw [simulation_duration_zero]
    omega
  exact ⟨hlt, (claim_C4_amended_thm 0 (-1) 0).2.2 hlt⟩

/-- Claim C8: in the result bundle of every normally returning run with
a monotone, non-negative clock, the five timings are non-negative and
non-decreasing in recording order, and timings.stop equals the
universe's recorded culmination. -/
theorem claim_C8_timings_monotone (height width n : ℕ) (mtd msd : ℤ)
    (o : Oracle) (fuel : ℕ) (tr : Trace) (r : ExperimentResult)
    (hmono : Monotone o.clock) (hnn : ∀ k, 0 ≤ o.clock k)
    (hok : experiment height width n mtd msd o fuel = (tr, Outcome.ok r)) :
    ∃ t0 t1 t2 t3 t4 : ℚ,
      r.timings = [ ( "init_universe", t0), ( "invoke_initial_population", t1),
        ( "start_initial_population", t2), ( "run", t3), ( "stop", t4) ]
      ∧ 0 ≤ t0 ∧ 0 ≤ t1 ∧ 0 ≤ t2 ∧ 0 ≤ t3 ∧ 0 ≤ t4
      ∧ t0 ≤ t1 ∧ t1 ≤ t2 ∧ t2 ≤ t3 ∧ t3 ≤ t4
      ∧ r.univ.culmination = some t4 := by
  obtain ⟨ps, rest, hgen, hocc, hle, htr, hr⟩ := experiment_ok_inv hok
  subst hr
  have h4 : 4 ≤ (runPhase o mtd msd).ci := by
    unfold runPhase
    exact runLoopAux_ci_le o _ _ _ _ 4 1
  exact ⟨o.clock 0, o.clock 1, o.clock 2, o.clock (runPhase o mtd msd).ci,
    o.clock ((runPhase o mtd msd).ci + 1), rfl, hnn 0, hnn 1, hnn 2, hnn _, hnn _,
    hmono (by omega), hmono (by omega), hmono (by omega), hmono (by omega), rfl⟩

/-- Witness for claim C8: a concrete run with a constant-zero clock. -/
theorem claim_C8_witness :
    ∃ tr r, experiment 1 1 1 5 0
        { clock := fun _ => 0, threads := fun _ => 3, draws := [ (0, 0) ] } 0
        = (tr, Outcome.ok r)
      ∧ ∃ t0 t1 t2 t3 t4 : ℚ,
          r.timings = [ ( "init_universe", t0), ( "invoke_initial_population", t1),
            ( "start_initial_population", t2), ( "run", t3), ( "stop", t4) ]
          ∧ 0 ≤ t0 ∧ 0 ≤ t1 ∧ 0 ≤ t2 ∧ 0 ≤ t3 ∧ 0 ≤ t4
          ∧ t0 ≤ t1 ∧ t1 ≤ t2 ∧ t2 ≤ t3 ∧ t3 ≤ t4
          ∧ r.univ.culmination = some t4 := by
  have hsd : simulation_duration 5 0
      (({ clock := fun _ => 0, threads := fun _ => 3, draws := [ (0, 0) ] }
        : Oracle).clock 3) ≤ 0 := by
    show simulation_duration 5 0 0 ≤ 0
    rw [simulation_duration_zero]
    omega
  have hrp := runPhase_of_nonpos hsd
  have hdrain : drainLoopAux
      { clock := fun _ => 0, threads := fun _ => 3, draws := [ (0, 0) ] }
      (({ clock := fun _ => 0, threads := fun _ => 3, draws := [ (0, 0) ] }
        : Oracle).threads 0) 0
      ((runPhase { clock := fun _ => 0, threads := fun _ => 3, draws := [ (0, 0) ] }
        5 0).ti) = some 2 := by
    rw [hrp]
    rfl
  have hexp := experiment_eq_ok 1 1 1 5 0
    { clock := fun _ => 0, threads := fun _ => 3, draws := [ (0, 0) ] } 0
    [ Position.mk 0 0 ] [] 2 (by decide) (by decide) (by decide) hdrain
  exact ⟨_, _, hexp,
    claim_C8_timings_monotone 1 1 1 5 0
      { clock := fun _ => 0, threads := fun _ => 3, draws := [ (0, 0) ] } 0 _ _
      monotone_const (fun _ => le_refl 0) hexp⟩

/-- Claim C10: when the computed simulation_duration is ≤ 0 at the start
of the run phase, the run loop executes zero iterations — no sleep, the
early-stop flag stays false — and experiment proceeds directly to
recording the run timing at the next clock reading (index 4) and to
signalling freeze. -/
theorem claim_C10_nonpos_duration_skips_loop (height width n : ℕ)
    (mtd msd : ℤ) (o : Oracle) (fuel : ℕ) (tr : Trace) (r : ExperimentResult)
    (hsd : simulation_duration mtd msd (o.clock 3) ≤ 0)
    (hok : experiment height width n mtd msd o fuel = (tr, Outcome.ok r)) :
    tr.earlyStop = false ∧ tr.sleeps = [] ∧ tr.freezeSignaled = true
      ∧ r.univ.freeze = true
      ∧ r.timings = [ ( "init_universe", o.clock 0),
          ( "invoke_initial_population", o.clock 1),
          ( "start_initial_population", o.clock 2),
          ( "run", o.clock 4), ( "stop", o.clock 5) ] := by
  obtain ⟨ps, rest, hgen, hocc, hle, htr, hr⟩ := experiment_ok_inv hok
  have hrp := runPhase_of_nonpos hsd
  subst htr
  subst hr
  rw [hrp]
  exact ⟨rfl, rfl, rfl, rfl, rfl⟩

/-- Witness for claim C10: a run with both duration budgets zero. -/
theorem claim_C10_witness :
    ∃ tr r, experiment 1 1 1 0 0
        { clock := fun _ => 0, threads := fun _ => 3, draws := [ (0, 0) ] } 0
        = (tr, Outcome.ok r)
      ∧ tr.earlyStop = false ∧ tr.sleeps = [] ∧ tr.freezeSignaled = true
      ∧ r.univ.freeze = true := by
  have hsd : simulation_duration 0 0
      (({ clock := fun _ => 0, threads := fun _ => 3, draws := [ (0, 0) ] }
        : Oracle).clock 3) ≤ 0 := by
    show simulation_duration 0 0 0 ≤ 0
    rw [simulation_duration_zero]
    omega
  have hrp := runPhase_of_nonpos hsd
  have hdrain : drainLoopAux
      { clock := fun _ => 0, threads := fun _ => 3, draws := [ (0, 0) ] }
      (({ clock := fun _ => 0, threads := fun _ => 3, draws := [ (0, 0) ] }
        : Oracle).threads 0) 0
      ((runPhase { clock := fun _ => 0, threads := fun _ => 3, draws := [ (0, 0) ] }
        0 0).ti) = some 2 := by
    rw [hrp]
    rfl
  have hexp := experiment_eq_ok 1 1 1 0 0
    { clock := fun _ => 0, threads := fun _ => 3, draws := [ (0, 0) ] } 0
    [ Position.mk 0 0 ] [] 2 (by decide) (by decide) (by decide) hdrain
  have h := claim_C10_nonpos_duration_skips_loop 1 1 1 0 0
    { clock := fun _ => 0, threads := fun _ => 3, draws := [ (0, 0) ] } 0 _ _
    hsd hexp
  exact ⟨_, _, hexp, h.1, h.2.1, h.2.2.1, h.2.2.2.1⟩

/-- Claim C1, what the code actually does: in a run where the active
thread count is already at the baseline on the first tick, the run loop
breaks early with the local early_stop flag set and no sleep performed
although simulation_duration is 3, yet the dictionary returned by
`experiment` has exactly the keys parameters, timings and universe —
it contains no early-stop indication, and neither the parameters nor
the timings maps carry such a key. -/
theorem claim_C1_early_stop_not_returned :
    (experiment 2 2 1 10 3
      { clock := fun _ => 0, threads := fun _ => 5, draws := [ (0, 0) ] } 0).1.earlyStop
      = true
  ∧ (experiment 2 2 1 10 3
      { clock := fun _ => 0, threads := fun _ => 5, draws := [ (0, 0) ] } 0).1.sleeps = []
  ∧ simulation_duration 10 3
      (({ clock := fun _ => 0, threads := fun _ => 5, draws := [ (0, 0) ] }
        : Oracle).clock 3) = 3
  ∧ experimentResultKeys = [ "parameters", "timings", "universe" ]
  ∧ "early_stop" ∉ experimentResultKeys
  ∧ ∃ r, (experiment 2 2 1 10 3
        { clock := fun _ => 0, threads := fun _ => 5, draws := [ (0, 0) ] } 0).2
        = Outcome.ok r
      ∧ r.parameters.map Prod.fst = [ "height", "width",
          "initial_population_count", "max_total_duration",
          "max_simulation_duration" ]
      ∧ r.timings.map Prod.fst = [ "init_universe", "invoke_initial_population",
          "start_initial_population", "run", "stop" ] := by
  have hsd : simulation_duration 10 3
      (({ clock := fun _ => 0, threads := fun _ => 5, draws := [ (0, 0) ] }
        : Oracle).clock 3) = 3 := by
    show simulation_duration 10 3 0 = 3
    rw [simulation_duration_zero]
    omega
  have hrp := runPhase_eq_of_sd hsd
  have hrp' : runPhase
      { clock := fun _ => 0, threads := fun _ => 5, draws := [ (0, 0) ] } 10 3
      = ⟨true, [], 4, 2⟩ := by
    rw [hrp]
    rfl
  have hdrain : drainLoopAux
      { clock := fun _ => 0, threads := fun _ => 5, draws := [ (0, 0) ] }
      (({ clock := fun _ => 0, threads := fun _ => 5, draws := [ (0, 0) ] }
        : Oracle).threads 0) 0
      ((runPhase { clock := fun _ => 0, threads := fun _ => 5, draws := [ (0, 0) ] }
        10 3).ti) = some 3 := by
    rw [hrp']
    rfl
  have hexp := experiment_eq_ok 2 2 1 10 3
    { clock := fun _ => 0, threads := fun _ => 5, draws := [ (0, 0) ] } 0
    [ Position.mk 0 0 ] [] 3 (by decide) (by decide) (by decide) hdrain
  refine ⟨?_, ?_, hsd, rfl, by decide, ?_⟩
  · rw [hexp]
    show (runPhase
      { clock := fun _ => 0, threads := fun _ => 5, draws := [ (0, 0) ] } 10 3).earlyStop
      = true
    rw [hrp']
  · rw [hexp]
    show (runPhase
      { clock := fun _ => 0, threads := fun _ => 5, draws := [ (0, 0) ] } 10 3).sleeps
      = []
    rw [hrp']
  · exact ⟨_, congrArg Prod.snd hexp, rfl, rfl⟩

/-- Witness for claim C2 at k = 2: two colliding draws give three nested
stack frames. -/
theorem claim_C2_witness :
    generate_position_depth [ (Position.mk 0 0) ] 1 2
      (List.replicate 2 (0, 0) ++ [ (0, 1) ]) = some (2 + 1) :=
  claim_C2_recursion_depth_unbounded 2

/-- Witness for claim C7 at sd = 3, i = 1, t = 0, and a one-tick loop. -/
theorem claim_C7_witness :
    (sleepArg 3 1 0 = max (((3 - 1 + 1 : ℤ) : ℚ) - 0) 0 ∧ 0 ≤ sleepArg 3 1 0)
  ∧ List.Forall (fun d => 0 ≤ d)
      (runLoopAux { clock := fun _ => 0, threads := fun _ => 5, draws := [] }
        5 3 0 [ 1 ] 4 1).sleeps :=
  ⟨claim_C7_sleep_drift_corrected.1 3 1 0,
   claim_C7_sleep_drift_corrected.2
     { clock := fun _ => 0, threads := fun _ => 5, draws := [] } 5 3 0 [ 1 ] 4 1⟩

end SE
